import Mathlib

/-
Verification development for the tripline integrity-monitoring tool.

The embedding models the three core components of the program:
  - the transactional record store over named bolt buckets (db/database.go),
  - the pluggable attribute-check engine (proc/*.go),
  - the fileset signature engine (db/database.go SignFileset / VerifyFilesetSignature).

External collaborators that are not part of this repository's sources
(encoding/json, crypto/sha256, the bolt B-tree, the tripline crypto package,
strconv, time, and the operating system) are modelled explicitly; each such
definition carries a doc comment naming what it stands for.
-/

set_option autoImplicit false

/-- Scalar JSON value appearing inside composite baseline data. -/
inductive JsonItem where
  | null
  | boolean (b : Bool)
  | num (n : Int)
  | str (s : String)
  deriving DecidableEq, Repr

/-- Dynamic JSON-decoded value held in a record's data map (Go interface). The
baseline data the program writes nests at most one level: an object of strings
for the ownership check and an array of strings for the child check, so
composite elements are restricted to scalars; malformed variants of every
shape the checkers inspect remain representable. -/
inductive JsonVal where
  | null
  | boolean (b : Bool)
  | num (n : Int)
  | str (s : String)
  | arr (xs : List JsonItem)
  | obj (fields : List (String × JsonItem))
  deriving DecidableEq, Repr

/-- Record stored in the tripline database (db/database.go TriplineRecord). -/
structure TriplineRecord where
  isDir : Bool
  checks : List String
  data : List (String × JsonVal)
  deriving DecidableEq, Repr

/-- Entry returned by listing and query operations (db/database.go TriplineEntry). -/
structure TriplineEntry where
  record : TriplineRecord
  path : String
  deriving DecidableEq, Repr

def jsonItemRender : JsonItem → String
  | .null => "null"
  | .boolean b => if b then "true" else "false"
  | .num n => toString n
  | .str s => "\"" ++ s ++ "\""

def jsonValRender : JsonVal → String
  | .null => "null"
  | .boolean b => if b then "true" else "false"
  | .num n => toString n
  | .str s => "\"" ++ s ++ "\""
  | .arr xs => "[" ++ String.intercalate "," (xs.map jsonItemRender) ++ "]"
  | .obj fields =>
      "\x7b" ++ String.intercalate "," (fields.map (fun p => "\"" ++ p.1 ++ "\":" ++ jsonItemRender p.2)) ++ "\x7d"

/-- Byte image of a marshalled record. json.Marshal is outside the repository;
a canonical JSON-like rendering models the bytes it produces. -/
def encodeRecord (r : TriplineRecord) : String :=
  "\x7b\"isDir\":" ++ (if r.isDir then "true" else "false") ++
  ",\"checks\":[" ++ String.intercalate "," (r.checks.map (fun c => "\"" ++ c ++ "\"")) ++
  "],\"data\":\x7b" ++
  String.intercalate "," (r.data.map (fun p => "\"" ++ p.1 ++ "\":" ++ jsonValRender p.2)) ++
  "\x7d\x7d"

/-- Bytes stored as a bucket value. Modelled from the spec: serialization
(encoding/json) and the authenticated cipher of the tripline crypto package are
outside src, so a value is tagged by its provenance — the marshalled form of a
record, raw bytes that do not unmarshal into a record (tampered or hand-edited
data), or a signature ciphertext — while valBytes gives its byte image. -/
inductive Val where
  | enc (r : TriplineRecord)
  | junk (bytes : String)
  | cipher (pwd : String) (plain : String)
  deriving DecidableEq, Repr

def valBytes : Val → String
  | .enc r => encodeRecord r
  | .junk bytes => bytes
  | .cipher pwd plain => "cipher:" ++ pwd ++ ":" ++ plain

/-- Unmarshal bucket bytes into a record (json.Unmarshal in QueryTriplineRecords):
succeeds exactly on the marshalled form of a record. -/
def unmarshalVal : Val → Option TriplineRecord
  | .enc r => some r
  | _ => none

def listLtB : List Char → List Char → Bool
  | [], [] => false
  | [], _ :: _ => true
  | _ :: _, [] => false
  | a :: as, b :: bs =>
    if a.toNat < b.toNat then true
    else if b.toNat < a.toNat then false
    else listLtB as bs

/-- Lexicographic byte order on keys, the order of bolt's B-tree cursor. -/
def strLtB (a b : String) : Bool := listLtB a.data b.data

/-- Go strings.HasPrefix: does s start with pre. -/
def hasPfx (s pre : String) : Bool := List.isPrefixOf pre.data s.data

/-- Bucket contents: key/value pairs kept in ascending key order, the order in
which bolt's cursor yields them. -/
abbrev Bucket := List (String × Val)

def bucketGet : Bucket → String → Option Val
  | [], _ => none
  | (k, v) :: rest, key => if k = key then some v else bucketGet rest key

/-- Put into a bucket at the key's B-tree position, replacing an existing entry. -/
def bucketPut : Bucket → String → Val → Bucket
  | [], key, v => [(key, v)]
  | (k, w) :: rest, key, v =>
    if strLtB key k then (key, v) :: (k, w) :: rest
    else if key = k then (key, v) :: rest
    else (k, w) :: bucketPut rest key v

def bucketDelete : Bucket → String → Bucket
  | [], _ => []
  | (k, w) :: rest, key => if k = key then rest else (k, w) :: bucketDelete rest key

/-- Contents of the bolt database file: named buckets. -/
abbrev Store := List (String × Bucket)

def findBucket : Store → String → Option Bucket
  | [], _ => none
  | (n, b) :: rest, name => if n = name then some b else findBucket rest name

def storeSet : Store → String → Bucket → Store
  | [], name, b => [(name, b)]
  | (n, c) :: rest, name, b =>
    if n = name then (n, b) :: rest else (n, c) :: storeSet rest name b

def storeDrop : Store → String → Store
  | [], _ => []
  | (n, c) :: rest, name => if n = name then rest else (n, c) :: storeDrop rest name

/-- Transaction state of the store handle (TriplineDb.boltTx): absent, read-only
or writable. At most one transaction exists by construction of the type. -/
inductive TxState where
  | noTx
  | readTx
  | writeTx
  deriving DecidableEq, Repr

/-- Error conditions of the store, one constructor per distinct message of
db/database.go (err005 .. err200) plus the error outcomes of the underlying
bolt calls and the engine's reserved-name guard. -/
inductive DbErr where
  | recordExists
  | unknownFileset (name : String)
  | pathMissing (path name : String)
  | unmarshalFailed
  | txRequired
  | writeTxRequired
  | nestedTx
  | txForbidden
  | createFailed (name : String)
  | beginFailed
  | commitFailed
  | rollbackFailed
  | sigExists (name : String)
  | noSignatures
  | noSignature
  | wrongPassword
  | contentsChanged
  | reservedName (name : String)
  deriving DecidableEq, Repr

instance {ε α : Type} [DecidableEq ε] [DecidableEq α] : DecidableEq (Except ε α) := fun a b =>
  match a, b with
  | .ok x, .ok y =>
    if h : x = y then isTrue (by rw [h]) else isFalse (fun hc => by cases hc; exact h rfl)
  | .error x, .error y =>
    if h : x = y then isTrue (by rw [h]) else isFalse (fun hc => by cases hc; exact h rfl)
  | .ok _, .error _ => isFalse (fun hc => by cases hc)
  | .error _, .ok _ => isFalse (fun hc => by cases hc)

/-- TriplineDb.Begin: refuse a nested transaction, else the underlying bolt
begin yields a read or write transaction, or fails leaving none open. -/
def Begin (tx : TxState) (write : Bool) (underlyingOk : Bool) : Option DbErr × TxState :=
  match tx with
  | .noTx =>
    if underlyingOk then (none, if write then .writeTx else .readTx)
    else (some .beginFailed, .noTx)
  | t => (some .nestedTx, t)

/-- TriplineDb.Commit: whatever the outcome of the underlying commit, the
transaction is removed from the handle. -/
def Commit (tx : TxState) (underlyingOk : Bool) : Option DbErr × TxState :=
  match tx with
  | .noTx => (some .txRequired, .noTx)
  | _ => ((if underlyingOk then none else some .commitFailed), .noTx)

/-- TriplineDb.Rollback: whatever the outcome of the underlying rollback, the
transaction is removed from the handle. -/
def Rollback (tx : TxState) (underlyingOk : Bool) : Option DbErr × TxState :=
  match tx with
  | .noTx => (some .txRequired, .noTx)
  | _ => ((if underlyingOk then none else some .rollbackFailed), .noTx)

/-- TriplineDb.Close: refused while a transaction is still open. -/
def Close (tx : TxState) : Option DbErr :=
  match tx with
  | .noTx => none
  | _ => some .txForbidden

/-- TriplineDb.HasTriplineRecord: runs inside its own boltDb.View and never
consults the handle's transaction, exactly as the source ignores db.boltTx. -/
def HasTriplineRecord (_tx : TxState) (s : Store) (path fileset : String) : Except DbErr Bool :=
  match findBucket s fileset with
  | none => .error (.unknownFileset fileset)
  | some bkt => .ok (bucketGet bkt path).isSome

/-- TriplineDb.AddTriplineRecord: requires a writable transaction, creates the
fileset bucket when absent, refuses an existing key unless overwrite is set.
json.Marshal of a TriplineRecord cannot fail, so the err030 branch is absent. -/
def AddTriplineRecord (tx : TxState) (s : Store) (path : String) (rec : TriplineRecord)
    (fileset : String) (overwrite : Bool) : Except DbErr Store :=
  if tx ≠ .writeTx then .error .writeTxRequired
  else
    let bkt := (findBucket s fileset).getD []
    if (bucketGet bkt path).isSome && !overwrite then .error .recordExists
    else .ok (storeSet s fileset (bucketPut bkt path (.enc rec)))

/-- TriplineDb.DeleteTriplineRecord: requires a writable transaction; a missing
bucket or key is an error unless skip is set. -/
def DeleteTriplineRecord (tx : TxState) (s : Store) (path fileset : String)
    (skip : Bool) : Except DbErr Store :=
  if tx ≠ .writeTx then .error .writeTxRequired
  else
    match findBucket s fileset with
    | none => if skip then .ok s else .error (.unknownFileset fileset)
    | some bkt =>
      if (bucketGet bkt path).isNone && !skip then .error (.pathMissing path fileset)
      else .ok (storeSet s fileset (bucketDelete bkt path))

/-- Cursor loop of QueryTriplineRecords: walk the bucket in key order, keep the
entries whose key starts with the path pre-string, unmarshal each kept value and
abort on the first value that does not unmarshal (err070). -/
def queryLoop (pfx : String) : Bucket → Except DbErr (List TriplineEntry)
  | [] => .ok []
  | (k, v) :: rest =>
    if hasPfx k pfx then
      match unmarshalVal v with
      | none => .error .unmarshalFailed
      | some r =>
        match queryLoop pfx rest with
        | .error e => .error e
        | .ok es => .ok (⟨r, k⟩ :: es)
    else queryLoop pfx rest

/-- TriplineDb.QueryTriplineRecords: requires a transaction and an existing
fileset, then runs the cursor loop. -/
def QueryTriplineRecords (tx : TxState) (s : Store) (fileset pfx : String) :
    Except DbErr (List TriplineEntry) :=
  if tx = .noTx then .error .txRequired
  else
    match findBucket s fileset with
    | none => .error (.unknownFileset fileset)
    | some bkt => queryLoop pfx bkt

/-- TriplineDb.ListTriplineRecords: a query with the empty path pre-string. -/
def ListTriplineRecords (tx : TxState) (s : Store) (fileset : String) :
    Except DbErr (List TriplineEntry) :=
  QueryTriplineRecords tx s fileset ""

/-- TriplineDb.ListFilesets: bucket names, hiding the reserved underscore
namespace. -/
def ListFilesets (tx : TxState) (s : Store) : Except DbErr (List String) :=
  if tx = .noTx then .error .txRequired
  else .ok ((s.map Prod.fst).filter (fun n => !hasPfx n "_"))

/-- TriplineDb.DeleteFileset: requires a writable transaction and an existing
fileset. -/
def DeleteFileset (tx : TxState) (s : Store) (fileset : String) : Except DbErr Store :=
  if tx ≠ .writeTx then .error .writeTxRequired
  else
    match findBucket s fileset with
    | none => .error (.unknownFileset fileset)
    | some _ => .ok (storeDrop s fileset)

def copyLoop : Bucket → Bucket → Bucket
  | [], acc => acc
  | (k, v) :: rest, acc => copyLoop rest (bucketPut acc k v)

/-- TriplineDb.CopyFileset: requires a writable transaction and an existing
source; bolt CreateBucket fails when the target already exists (err110). -/
def CopyFileset (tx : TxState) (s : Store) (src target : String) : Except DbErr Store :=
  if tx ≠ .writeTx then .error .writeTxRequired
  else
    match findBucket s src with
    | none => .error (.unknownFileset src)
    | some srcBkt =>
      match findBucket s target with
      | some _ => .error (.createFailed target)
      | none => .ok (storeSet s target (copyLoop srcBkt []))

/-- Reserved bucket holding the fileset signatures. -/
def sigbucket : String := "_signatures"

/-- Modelled from the spec: the crypto/sha256 digest from the Go standard
library, idealized as an injective function of its input bytes (the standard
collision-free idealization of a cryptographic hash). -/
def sha256model (s : String) : String := "sha256:" ++ s

/-- Byte stream fed to the hash by calcBucketHash: every key then its value,
in cursor (key) order, with no framing between them. -/
def hashStream : Bucket → String
  | [] => ""
  | (k, v) :: rest => k ++ valBytes v ++ hashStream rest

/-- calcBucketHash (db/database.go): sha256 over the keys and values of a
bucket in cursor order. -/
def calcBucketHash (b : Bucket) : String := sha256model (hashStream b)

/-- Modelled from the spec: crypto.Encrypt of the tripline crypto package,
authenticated symmetric encryption under a password-derived key. -/
def Encrypt (password plain : String) : Val := .cipher password plain

/-- Modelled from the spec: crypto.Decrypt of the tripline crypto package;
authenticated decryption succeeds exactly under the encrypting password and
yields the encrypted plaintext. -/
def Decrypt (password : String) (v : Val) : Option String :=
  match v with
  | .cipher pwd plain => if pwd = password then some plain else none
  | _ => none

/-- TriplineDb.SignFileset: requires a writable transaction, refuses to replace
an existing signature unless update is set, hashes the fileset bucket and
stores the encrypted hash in the reserved signatures bucket. -/
def SignFileset (tx : TxState) (s : Store) (fileset password : String)
    (update : Bool) : Except DbErr Store :=
  if tx ≠ .writeTx then .error .writeTxRequired
  else
    let sigs := (findBucket s sigbucket).getD []
    if (bucketGet sigs fileset).isSome && !update then .error (.sigExists fileset)
    else
      match findBucket s fileset with
      | none => .error (.unknownFileset fileset)
      | some srcBkt =>
        .ok (storeSet s sigbucket
          (bucketPut sigs fileset (Encrypt password (calcBucketHash srcBkt))))

/-- TriplineDb.VerifyFilesetSignature: requires a transaction and an existing
fileset; recomputes the bucket hash, then fails on an absent signatures bucket
(err170), an absent signature entry (err180), failing decryption (err190) or a
hash mismatch (err200), and passes otherwise. -/
def VerifyFilesetSignature (tx : TxState) (s : Store) (fileset password : String) :
    Except DbErr Unit :=
  if tx = .noTx then .error .txRequired
  else
    match findBucket s fileset with
    | none => .error (.unknownFileset fileset)
    | some srcBkt =>
      let hash := calcBucketHash srcBkt
      match findBucket s sigbucket with
      | none => .error .noSignatures
      | some sigs =>
        match bucketGet sigs fileset with
        | none => .error .noSignature
        | some oldSignature =>
          match Decrypt password oldSignature with
          | none => .error .wrongPassword
          | some plain => if plain = hash then .ok () else .error .contentsChanged

/-- Resolved owner and group names of a file (proc/ownership.go ownership). -/
structure FileOwner where
  user : String
  group : String
  deriving DecidableEq, Repr

/-- Snapshot of os.FileInfo as the checkers consume it: kind, size, the
RFC3339Nano-formatted modification time, the textual mode string, and the
owner resolved through statUnix (none models a failing Sys assertion). -/
structure FileInfo where
  isDir : Bool
  size : Int
  modTimeRepr : String
  modeStr : String
  owner : Option FileOwner
  deriving DecidableEq, Repr

/-- Filesystem as the verify pass observes it (all I/O is external to the
core): stat by path, file contents for the digest check, directory child names
for the child check. -/
structure FsState where
  stat : String → Option FileInfo
  readFile : String → Option String
  readDir : String → Option (List String)

/-- statUnix (proc/ownership.go): owner and group resolved from the stat data. -/
def statUnix (fi : FileInfo) : Option FileOwner := fi.owner

def digitVal (c : Char) : Option Nat :=
  if 48 ≤ c.toNat ∧ c.toNat ≤ 57 then some (c.toNat - 48) else none

def parseDigitsAux : List Char → Nat → Option Nat
  | [], acc => some acc
  | c :: rest, acc =>
    match digitVal c with
    | none => none
    | some d => parseDigitsAux rest (acc * 10 + d)

def parseDigits : List Char → Option Nat
  | [] => none
  | l => parseDigitsAux l 0

/-- Modelled from the spec: strconv.ParseInt base 10 of the standard library
(the int64 range check is dropped; no claim exercises it). -/
def parseIntModel (s : String) : Option Int :=
  match s.data with
  | '-' :: rest => (parseDigits rest).map (fun n => -(n : Int))
  | '+' :: rest => (parseDigits rest).map (fun n => (n : Int))
  | l => (parseDigits l).map (fun n => (n : Int))

/-- fileSizeChecker.executeCheck (part_003): the stored size must be a string
holding a base-10 integer equal to the current size. -/
def sizeExecuteCheck (data : Option JsonVal) (fi : FileInfo) : Option String :=
  match data with
  | some (.str stored) =>
    match parseIntModel stored with
    | some recorded =>
      if fi.size ≠ recorded then
        some ("expected " ++ toString recorded ++ " actual " ++ toString fi.size)
      else none
    | none => some "size was not recorded"
  | _ => some "size was not recorded"

/-- Modelled from the spec: time.Parse RFC3339Nano is used only to validate the
stored string before the string comparison; validity is abstracted to an
executable placeholder, and no claim depends on which strings are valid
timestamps. -/
def timeParseOk (s : String) : Bool := !s.isEmpty

/-- modTimeChecker.executeCheck (proc/modtime.go): the stored representation
must be a parseable timestamp string equal, as a string, to the current
formatted modification time. -/
def modtimeExecuteCheck (data : Option JsonVal) (fi : FileInfo) : Option String :=
  match data with
  | some (.str recorded) =>
    if timeParseOk recorded then
      if fi.modTimeRepr ≠ recorded then
        some ("expected " ++ recorded ++ " actual " ++ fi.modTimeRepr)
      else none
    else some "modtime not recorded"
  | _ => some "modtime not recorded"

/-- permissionsChecker.executeCheck: the stored mode string must equal the
current one. -/
def permissionsExecuteCheck (data : Option JsonVal) (fi : FileInfo) : Option String :=
  match data with
  | some (.str expected) =>
    if expected ≠ fi.modeStr then
      some ("expected " ++ expected ++ " actual " ++ fi.modeStr)
    else none
  | _ => some "corrupt data, expected string"

def lookupField : List (String × JsonItem) → String → Option JsonItem
  | [], _ => none
  | (k, v) :: rest, key => if k = key then some v else lookupField rest key

/-- ownershipChecker.executeCheck (proc/ownership.go): the stored value must be
an object carrying string fields User and Group, each equal to the freshly
resolved owner; every shape violation yields the "data corrupt" reason. -/
def ownershipExecuteCheck (data : Option JsonVal) (fi : FileInfo) : Option String :=
  match data with
  | some (.obj fields) =>
    match lookupField fields "User" with
    | some (.str expUser) =>
      match lookupField fields "Group" with
      | some (.str expGroup) =>
        match statUnix fi with
        | none => some "retreive ownership"
        | some actual =>
          if expUser ≠ actual.user ∨ expGroup ≠ actual.group then
            some ("expected " ++ expUser ++ ":" ++ expGroup ++
              " actual " ++ actual.user ++ ":" ++ actual.group)
          else none
      | _ => some "data corrupt"
    | _ => some "data corrupt"
  | _ => some "data corrupt"

/-- Modelled from the spec: hex-encoded sha256 of file contents, idealized as
an injective function of the contents. -/
def sha256hex (content : String) : String := "hex:" ++ content

/-- sha256Checker.executeCheck (proc/sha256.go): the stored value must be a
string equal to the recomputed content digest; a non-string value is reported
as "data corrupt" before any file I/O. -/
def sha256ExecuteCheck (fs : FsState) (fqn : String) (data : Option JsonVal) : Option String :=
  match data with
  | some (.str expected) =>
    match fs.readFile fqn with
    | none => some "open file"
    | some content =>
      if expected ≠ sha256hex content then
        some ("expected " ++ expected ++ " actual " ++ sha256hex content)
      else none
  | _ => some "data corrupt"

/-- childList (part_004): names of the immediate children of a directory. -/
def childList (fs : FsState) (fqn : String) : Option (List String) := fs.readDir fqn

/-- Element assertion of childChecker.executeCheck: every expected child must
be a string; any other element makes the stored data corrupt. -/
def collectStrings : List JsonItem → Option (List String)
  | [] => some []
  | .str s :: rest => (collectStrings rest).map (fun l => s :: l)
  | _ :: _ => none

/-- Diff walk of childChecker.executeCheck: each actual child found in the
remaining expected set is removed from it, every other actual child is
reported as new; what remains of the expected set afterwards was removed. -/
def childScan : List String → List String → List String × List String
  | remaining, [] => ([], remaining)
  | remaining, c :: rest =>
    if remaining.contains c then childScan (remaining.erase c) rest
    else
      let res := childScan remaining rest
      (("new child " ++ c) :: res.1, res.2)

/-- childChecker.executeCheck (part_004): the stored value must be an array of
strings; the current child listing must match it as a set, and the failure
reason lists every new and every removed child. -/
def childExecuteCheck (fs : FsState) (fqn : String) (data : Option JsonVal) : Option String :=
  match data with
  | some (.arr expected) =>
    match childList fs fqn with
    | none => some ("read dir " ++ fqn)
    | some actual =>
      match collectStrings expected with
      | none => some "corrupt child data"
      | some expectedStrs =>
        let res := childScan expectedStrs.dedup actual
        let msgs := res.1 ++ res.2.map (fun c => "removed child " ++ c)
        if msgs.isEmpty then none else some (String.intercalate "," msgs)
  | _ => some "corrupt child data"

/-- The built-in checkers of the registries (part_002 fileChecks/dirChecks). -/
inductive CheckerKind where
  | noCheck
  | sizeCheck
  | ownershipCheck
  | modtimeCheck
  | permissionsCheck
  | sha256Check
  | childCheck
  deriving DecidableEq, Repr

/-- fileChecks registry (part_002): check names valid for plain files; both
"nocheck" and "content" are bound to the empty checker. -/
def fileChecks : String → Option CheckerKind
  | "nocheck" => some .noCheck
  | "size" => some .sizeCheck
  | "ownership" => some .ownershipCheck
  | "content" => some .noCheck
  | "modtime" => some .modtimeCheck
  | "permissions" => some .permissionsCheck
  | "sha256" => some .sha256Check
  | _ => none

/-- dirChecks registry (part_002): check names valid for directories. -/
def dirChecks : String → Option CheckerKind
  | "nocheck" => some .noCheck
  | "ownership" => some .ownershipCheck
  | "child" => some .childCheck
  | "modtime" => some .modtimeCheck
  | "permissions" => some .permissionsCheck
  | _ => none

/-- Dispatch of fileChecker.executeCheck over the built-in checkers; the empty
checker (noChecker) always passes. -/
def executeCheck (fs : FsState) (kind : CheckerKind) (fqn : String)
    (data : Option JsonVal) (fi : FileInfo) : Option String :=
  match kind with
  | .noCheck => none
  | .sizeCheck => sizeExecuteCheck data fi
  | .ownershipCheck => ownershipExecuteCheck data fi
  | .modtimeCheck => modtimeExecuteCheck data fi
  | .permissionsCheck => permissionsExecuteCheck data fi
  | .sha256Check => sha256ExecuteCheck fs fqn data
  | .childCheck => childExecuteCheck fs fqn data

/-- Lookup in a record's data map (Go map indexing, nil when absent). -/
def lookupData : List (String × JsonVal) → String → Option JsonVal
  | [], _ => none
  | (k, v) :: rest, key => if k = key then some v else lookupData rest key

/-- Inner loop of verifyFile (part_002): one failure per check in the record's
checks list that names no registered checker or whose execution errors. -/
def checkLoop (fs : FsState) (e : TriplineEntry) (fi : FileInfo) :
    List String → Nat → Nat
  | [], fails => fails
  | c :: rest, fails =>
    match (if e.record.isDir then dirChecks c else fileChecks c) with
    | none => checkLoop fs e fi rest (fails + 1)
    | some kind =>
      match executeCheck fs kind e.path (lookupData e.record.data c) fi with
      | none => checkLoop fs e fi rest fails
      | some _ => checkLoop fs e fi rest (fails + 1)

/-- Entry loop of verifyFile (part_002): one failure and continue when the path
no longer exists, one failure and continue when the stored kind no longer
matches, otherwise the user-selected checks run. -/
def verifyLoop (fs : FsState) : List TriplineEntry → Nat → Nat
  | [], fails => fails
  | e :: rest, fails =>
    match fs.stat e.path with
    | none => verifyLoop fs rest (fails + 1)
    | some fi =>
      if fi.isDir ≠ e.record.isDir then verifyLoop fs rest (fails + 1)
      else verifyLoop fs rest (checkLoop fs e fi e.record.checks fails)

/-- verifyFile (part_002): query the entries in scope of the path, then count
failures over them. File names reach this point already made absolute; the
filepath.Abs step of the callers is the identity on them. -/
def verifyFile (fs : FsState) (fqn fileset : String) (tx : TxState) (s : Store) :
    Except DbErr Nat :=
  match QueryTriplineRecords tx s fileset fqn with
  | .error e => .error e
  | .ok entries => .ok (verifyLoop fs entries 0)

def verifyFilesLoop (fs : FsState) (fileset : String) (tx : TxState) (s : Store) :
    List String → Nat → Except DbErr Nat
  | [], total => .ok total
  | fn :: rest, total =>
    match verifyFile fs fn fileset tx s with
    | .error e => .error e
    | .ok fails => verifyFilesLoop fs fileset tx s rest (total + fails)

/-- VerifyFiles (part_002): an empty name list verifies the whole fileset, else
each named path contributes the failures of its scope; the reserved-name guard
(log.Fatalf in the source, which terminates the process) is an error outcome. -/
def VerifyFiles (fs : FsState) (fileNames : List String) (fileset : String)
    (tx : TxState) (s : Store) : Except DbErr Nat :=
  if hasPfx fileset "_" then .error (.reservedName fileset)
  else
    match fileNames with
    | [] => verifyFile fs "" fileset tx s
    | l => verifyFilesLoop fs fileset tx s l 0

/-- Store-write step of addFileOrDir (part_002 lines 163-178): push the
prepared record, honouring the skip policy on the distinguished record-exists
condition (the err070 message wrapper of the source is dropped). -/
def addRecordWithPolicy (tx : TxState) (s : Store) (fqn : String)
    (rec : TriplineRecord) (fileset : String) (overwrite skip : Bool) :
    Except DbErr Store :=
  match AddTriplineRecord tx s fqn rec fileset overwrite with
  | .ok s2 => .ok s2
  | .error .recordExists => if skip then .ok s else .error .recordExists
  | .error e => .error e

def deleteEntriesLoop (tx : TxState) (fileset : String) :
    List TriplineEntry → Store → Except DbErr Store
  | [], s => .ok s
  | e :: rest, s =>
    match DeleteTriplineRecord tx s e.path fileset true with
    | .error err => .error err
    | .ok s2 => deleteEntriesLoop tx fileset rest s2

def deleteFilesLoop (tx : TxState) (fileset : String) :
    List String → Store → Except DbErr Store
  | [], s => .ok s
  | fn :: rest, s =>
    match QueryTriplineRecords tx s fileset fn with
    | .error e => .error e
    | .ok entries =>
      match deleteEntriesLoop tx fileset entries s with
      | .error e => .error e
      | .ok s2 => deleteFilesLoop tx fileset rest s2

/-- DeleteFiles (part_002): for each named path, delete every stored entry
whose key starts with it, with the skip flag set. -/
def DeleteFiles (fileNames : List String) (fileset : String) (tx : TxState)
    (s : Store) : Except DbErr Store :=
  if hasPfx fileset "_" then .error (.reservedName fileset)
  else deleteFilesLoop tx fileset fileNames s

/-- Does this named check of this entry fail, exactly as the verify inner loop
decides it: an unregistered name is a failure, otherwise the checker's error. -/
def checkFailsB (fs : FsState) (e : TriplineEntry) (fi : FileInfo) (c : String) : Bool :=
  match (if e.record.isDir then dirChecks c else fileChecks c) with
  | none => true
  | some kind => (executeCheck fs kind e.path (lookupData e.record.data c) fi).isSome

/-- Failure count of a single entry as the specification words it: one failure
when the filesystem path no longer exists, one when the stored directory/file
kind no longer matches, otherwise one failure per check in the record's checks
list that errors. -/
def specEntryFailCount (fs : FsState) (e : TriplineEntry) : Nat :=
  match fs.stat e.path with
  | none => 1
  | some fi =>
    if fi.isDir ≠ e.record.isDir then 1
    else (e.record.checks.filter (checkFailsB fs e fi)).length

/-- Record with no checks and no data, the smallest well-formed baseline. -/
def recEmpty : TriplineRecord := ⟨false, [], []⟩

/-- Store with one fileset holding one record, for concrete evaluations. -/
def storeHas : Store := [("fsa", [("/p", Val.enc recEmpty)])]

/-- Bucket state before a tamper that moves a byte from one value to another. -/
def tamperedA : Bucket := [("a", Val.junk "b"), ("b", Val.junk "")]

/-- Bucket state after the tamper: both values changed, keys untouched. -/
def tamperedB : Bucket := [("a", Val.junk ""), ("b", Val.junk "b")]

/-- Filesystem with no files at all. -/
def fsAbsent : FsState := ⟨fun _ => none, fun _ => none, fun _ => none⟩

/-- Store with entries at paths /a/b, /a/bc and /x: /a/bc begins with the
string /a/b without being it or one of its descendants. -/
def store10 : Store :=
  [("set10", [("/a/b", Val.enc recEmpty), ("/a/bc", Val.enc recEmpty), ("/x", Val.enc recEmpty)])]

/-- Store whose fileset holds one corrupt value ahead of a valid record. -/
def store4corrupt : Store := [("set4", [("/a", Val.junk "xx"), ("/b", Val.enc recEmpty)])]

/-- Record whose size baseline has the wrong dynamic type (a number where the
checker expects a string). -/
def rec4b : TriplineRecord := ⟨false, ["size"], [("size", JsonVal.num 5)]⟩

/-- Store holding the record with the malformed size baseline. -/
def store4b : Store := [("set4b", [("/c", Val.enc rec4b)])]

/-- Filesystem where /c exists as a plain file. -/
def fs4b : FsState :=
  ⟨fun p => if p = "/c" then some ⟨false, 3, "t0", "-rw-", none⟩ else none,
   fun _ => none, fun _ => none⟩

/-- Record checking size and permissions, both of which will mismatch. -/
def rec3w : TriplineRecord :=
  ⟨false, ["size", "permissions"],
   [("size", JsonVal.str "10"), ("permissions", JsonVal.str "-rw-")]⟩

/-- Store holding the doubly-drifting record. -/
def store3w : Store := [("set3", [("/w", Val.enc rec3w)])]

/-- Filesystem where /w exists with a different size and a different mode than
the recorded baseline. -/
def fs3w : FsState :=
  ⟨fun p => if p = "/w" then some ⟨false, 11, "t1", "-r--", none⟩ else none,
   fun _ => none, fun _ => none⟩

/-- Fileset bucket that gets signed in the signature examples. -/
def bkt2 : Bucket := [("/f", Val.enc recEmpty)]

/-- Signature of bkt2 under password pw. -/
def sig2 : Val := Encrypt "pw" (calcBucketHash bkt2)

/-- Store holding the signed fileset and its signature entry. -/
def store2 : Store := [("set2", bkt2), ("_signatures", [("set2", sig2)])]

/-- Current file metadata used when exercising checkers on malformed data. -/
def fi9 : FileInfo := ⟨false, 0, "t9", "-rw-", none⟩

/-- Filesystem whose directories are all empty, for the child checker. -/
def fs9 : FsState := ⟨fun _ => none, fun _ => none, fun _ => some []⟩

/-- Store with two decodable entries sharing the prefix /a. -/
def store8 : Store := [("set8", [("/a", Val.enc recEmpty), ("/ab", Val.enc recEmpty)])]

/-- Result of a fileset query as the specification words it: exactly the
entries whose path key starts with the path pre-string, in bucket (key) order,
each carrying its unmarshalled record. -/
def specQueryResult (pfx : String) (b : Bucket) : List TriplineEntry :=
  b.filterMap (fun kv =>
    if hasPfx kv.1 pfx then (unmarshalVal kv.2).map (fun r => ⟨r, kv.1⟩) else none)

/-- Shape a stored ownership baseline must have for the checker to proceed: an
object with string fields User and Group. -/
def ownershipShapeOk : Option JsonVal → Bool
  | some (.obj fields) =>
    match lookupField fields "User", lookupField fields "Group" with
    | some (.str _), some (.str _) => true
    | _, _ => false
  | _ => false

/-- Is the dynamic value a JSON string, the shape expected by the size,
modtime, permissions and sha256 checkers. -/
def isStrVal : Option JsonVal → Bool
  | some (.str _) => true
  | _ => false

/-- Is the dynamic value a JSON array, the shape expected by the child checker. -/
def isArrVal : Option JsonVal → Bool
  | some (.arr _) => true
  | _ => false

theorem string_append_left_cancel {s a b : String} (h : s ++ a = s ++ b) : a = b := by
  have h2 : (s ++ a).data = (s ++ b).data := by rw [h]
  simp [String.data_append] at h2
  exact String.ext h2

/-- C6: the store handle holds at most one transaction, and the
begin/commit/rollback/close discipline preserves it: begin fails with the
nested-transaction condition while one is open, commit and rollback clear the
active transaction whatever the underlying outcome, and close fails with the
transaction-forbidden condition while one is open. -/
theorem tx_state_machine_discipline :
    (∀ (t : TxState) (w u : Bool), t ≠ TxState.noTx →
       Begin t w u = (some DbErr.nestedTx, t)) ∧
    (∀ (t : TxState) (u : Bool), (Commit t u).2 = TxState.noTx) ∧
    (∀ (t : TxState) (u : Bool), (Rollback t u).2 = TxState.noTx) ∧
    (∀ (t : TxState), t ≠ TxState.noTx → Close t = some DbErr.txForbidden) := by
  refine ⟨?_, ?_, ?_, ?_⟩
  · intro t w u h
    cases t with
    | noTx => exact absurd rfl h
    | readTx => rfl
    | writeTx => rfl
  · intro t u; cases t <;> rfl
  · intro t u; cases t <;> rfl
  · intro t h
    cases t with
    | noTx => exact absurd rfl h
    | readTx => rfl
    | writeTx => rfl

theorem tx_state_machine_discipline_witness :
    Begin TxState.readTx true true = (some DbErr.nestedTx, TxState.readTx) ∧
    (Commit TxState.writeTx false).2 = TxState.noTx ∧
    (Rollback TxState.readTx false).2 = TxState.noTx ∧
    Close TxState.writeTx = some DbErr.txForbidden :=
  ⟨tx_state_machine_discipline.1 TxState.readTx true true (by decide),
   tx_state_machine_discipline.2.1 TxState.writeTx false,
   tx_state_machine_discipline.2.2.1 TxState.readTx false,
   tx_state_machine_discipline.2.2.2 TxState.writeTx (by decide)⟩

/-- C5 counterexample: with no transaction open, has does not fail with the
transaction-required condition — it runs in its own internal read view and
succeeds, here answering true for a present record. -/
theorem has_record_succeeds_without_transaction :
    HasTriplineRecord TxState.noTx storeHas "/p" "fsa" = Except.ok true := by decide

/-- C5 amended: with no transaction open, query, list, listFilesets and
signature verification fail with the transaction-required condition, while the
mutating operations (add, delete, deleteFileset, copyFileset, sign) fail with
the write-transaction-required condition both then and on a read-only
transaction; has runs in its own internal read view and needs no transaction. -/
theorem transaction_guards :
    (∀ (tx : TxState) (s : Store) (p f : String) (b : Bucket),
       findBucket s f = some b →
       HasTriplineRecord tx s p f = Except.ok (bucketGet b p).isSome) ∧
    (∀ (s : Store) (f pfx : String),
       QueryTriplineRecords TxState.noTx s f pfx = .error .txRequired) ∧
    (∀ (s : Store) (f : String),
       ListTriplineRecords TxState.noTx s f = .error .txRequired) ∧
    (∀ (s : Store), ListFilesets TxState.noTx s = .error .txRequired) ∧
    (∀ (s : Store) (f pw : String),
       VerifyFilesetSignature TxState.noTx s f pw = .error .txRequired) ∧
    (∀ (tx : TxState) (s : Store) (p : String) (r : TriplineRecord) (f : String) (ow : Bool),
       tx ≠ TxState.writeTx → AddTriplineRecord tx s p r f ow = .error .writeTxRequired) ∧
    (∀ (tx : TxState) (s : Store) (p f : String) (sk : Bool),
       tx ≠ TxState.writeTx → DeleteTriplineRecord tx s p f sk = .error .writeTxRequired) ∧
    (∀ (tx : TxState) (s : Store) (f : String),
       tx ≠ TxState.writeTx → DeleteFileset tx s f = .error .writeTxRequired) ∧
    (∀ (tx : TxState) (s : Store) (src tgt : String),
       tx ≠ TxState.writeTx → CopyFileset tx s src tgt = .error .writeTxRequired) ∧
    (∀ (tx : TxState) (s : Store) (f pw : String) (up : Bool),
       tx ≠ TxState.writeTx → SignFileset tx s f pw up = .error .writeTxRequired) := by
  refine ⟨?_, ?_, ?_, ?_, ?_, ?_, ?_, ?_, ?_, ?_⟩
  · intro tx s p f b hb
    unfold HasTriplineRecord
    rw [hb]
  · intro s f pfx; rfl
  · intro s f; rfl
  · intro s; rfl
  · intro s f pw; rfl
  · intro tx s p r f ow h
    cases tx with
    | noTx => rfl
    | readTx => rfl
    | writeTx => exact absurd rfl h
  · intro tx s p f sk h
    cases tx with
    | noTx => rfl
    | readTx => rfl
    | writeTx => exact absurd rfl h
  · intro tx s f h
    cases tx with
    | noTx => rfl
    | readTx => rfl
    | writeTx => exact absurd rfl h
  · intro tx s src tgt h
    cases tx with
    | noTx => rfl
    | readTx => rfl
    | writeTx => exact absurd rfl h
  · intro tx s f pw up h
    cases tx with
    | noTx => rfl
    | readTx => rfl
    | writeTx => exact absurd rfl h

theorem transaction_guards_witness :
    HasTriplineRecord TxState.noTx storeHas "/q" "fsa" = Except.ok false ∧
    QueryTriplineRecords TxState.noTx storeHas "fsa" "" = .error .txRequired ∧
    ListTriplineRecords TxState.noTx storeHas "fsa" = .error .txRequired ∧
    ListFilesets TxState.noTx storeHas = .error .txRequired ∧
    VerifyFilesetSignature TxState.noTx storeHas "fsa" "pw" = .error .txRequired ∧
    AddTriplineRecord TxState.readTx storeHas "/p" recEmpty "fsa" false = .error .writeTxRequired ∧
    DeleteTriplineRecord TxState.readTx storeHas "/p" "fsa" false = .error .writeTxRequired ∧
    DeleteFileset TxState.readTx storeHas "fsa" = .error .writeTxRequired ∧
    CopyFileset TxState.readTx storeHas "fsa" "fsb" = .error .writeTxRequired ∧
    SignFileset TxState.readTx storeHas "fsa" "pw" false = .error .writeTxRequired :=
  ⟨(transaction_guards.1 TxState.noTx storeHas "/q" "fsa"
      [("/p", Val.enc recEmpty)] (by decide)).trans (by decide),
   transaction_guards.2.1 storeHas "fsa" "",
   transaction_guards.2.2.1 storeHas "fsa",
   transaction_guards.2.2.2.1 storeHas,
   transaction_guards.2.2.2.2.1 storeHas "fsa" "pw",
   transaction_guards.2.2.2.2.2.1 TxState.readTx storeHas "/p" recEmpty "fsa" false (by decide),
   transaction_guards.2.2.2.2.2.2.1 TxState.readTx storeHas "/p" "fsa" false (by decide),
   transaction_guards.2.2.2.2.2.2.2.1 TxState.readTx storeHas "fsa" (by decide),
   transaction_guards.2.2.2.2.2.2.2.2.1 TxState.readTx storeHas "fsa" "fsb" (by decide),
   transaction_guards.2.2.2.2.2.2.2.2.2 TxState.readTx storeHas "fsa" "pw" false (by decide)⟩

/-- C1 counterexample: moving one byte between the values of the two keys is a
mutation of the fileset's key/value contents (both values change, the keys stay
the same), yet the hash input k1 v1 k2 v2 is the byte stream "abb" in both
states, so the digest is unchanged and the mutation is not detectable. -/
theorem digest_unchanged_by_value_mutation :
    calcBucketHash tamperedA = calcBucketHash tamperedB ∧
    tamperedA ≠ tamperedB ∧
    tamperedA.map Prod.fst = tamperedB.map Prod.fst := by decide

/-- C1 amended: the digest is a pure function of the concatenated key/value
byte stream of the fileset in key order, and two fileset states carry equal
digests exactly when that unframed concatenation is equal — a mutation is
detectable precisely when it changes the stream. -/
theorem digest_eq_iff_hash_stream_eq (b1 b2 : Bucket) :
    calcBucketHash b1 = calcBucketHash b2 ↔ hashStream b1 = hashStream b2 := by
  constructor
  · intro h
    unfold calcBucketHash sha256model at h
    exact string_append_left_cancel h
  · intro h
    unfold calcBucketHash sha256model
    rw [h]

/-- C10: verify and delete scope entries by raw string prefix over flat path
keys, so an operation on /a/b also selects the entry at /a/bc, which merely
begins with the string /a/b: the query returns both entries, verify counts
failures for both (both paths are absent from this filesystem), and delete
removes both, leaving only /x. -/
theorem prefix_scope_includes_shared_prefix_sibling :
    QueryTriplineRecords TxState.readTx store10 "set10" "/a/b" =
      .ok [⟨recEmpty, "/a/b"⟩, ⟨recEmpty, "/a/bc"⟩] ∧
    verifyFile fsAbsent "/a/b" "set10" TxState.readTx store10 = .ok 2 ∧
    DeleteFiles ["/a/b"] "set10" TxState.writeTx store10 =
      .ok [("set10", [("/x", Val.enc recEmpty)])] := by decide

theorem checkLoop_eq_filter (fs : FsState) (e : TriplineEntry) (fi : FileInfo) :
    ∀ (cs : List String) (n : Nat),
      checkLoop fs e fi cs n = n + (cs.filter (checkFailsB fs e fi)).length := by
  intro cs
  induction cs with
  | nil => intro n; simp [checkLoop]
  | cons c rest ih =>
    intro n
    cases hreg : (if e.record.isDir then dirChecks c else fileChecks c) with
    | none =>
      simp only [checkLoop, hreg, ih, List.filter, checkFailsB, List.length_cons]
      omega
    | some kind =>
      cases hex : executeCheck fs kind e.path (lookupData e.record.data c) fi with
      | none =>
        simp only [checkLoop, hreg, hex, ih, List.filter, checkFailsB,
          Option.isSome_none, List.length_cons]
      | some msg =>
        simp only [checkLoop, hreg, hex, ih, List.filter, checkFailsB,
          Option.isSome_some, List.length_cons]
        omega

theorem verifyLoop_eq_sum (fs : FsState) :
    ∀ (es : List TriplineEntry) (n : Nat),
      verifyLoop fs es n = n + (es.map (specEntryFailCount fs)).sum := by
  intro es
  induction es with
  | nil => intro n; simp [verifyLoop]
  | cons e rest ih =>
    intro n
    cases hst : fs.stat e.path with
    | none =>
      simp only [verifyLoop, hst, ih, List.map, List.sum_cons, specEntryFailCount]
      omega
    | some fi =>
      by_cases hdir : fi.isDir ≠ e.record.isDir
      · simp only [verifyLoop, hst, if_pos hdir, ih, List.map, List.sum_cons,
          specEntryFailCount]
        omega
      · simp only [verifyLoop, hst, if_neg hdir, ih, List.map, List.sum_cons,
          specEntryFailCount, checkLoop_eq_filter]
        omega

/-- C3: for every verify invocation whose query step succeeds, each stored
entry in scope contributes failures independently — one when the path no
longer exists, one when the stored kind no longer matches, and otherwise one
per erroring check of the record's checks list — verification never stops
early, and the returned total is the sum of the per-entry counts, so a single
changed file can contribute more than one. -/
theorem verify_total_is_sum_of_entry_failures (fs : FsState) (fqn fileset : String)
    (tx : TxState) (s : Store) (entries : List TriplineEntry)
    (h : QueryTriplineRecords tx s fileset fqn = .ok entries) :
    verifyFile fs fqn fileset tx s = .ok ((entries.map (specEntryFailCount fs)).sum) := by
  simp [verifyFile, h, verifyLoop_eq_sum]

theorem verify_total_is_sum_of_entry_failures_witness :
    verifyFile fs3w "" "set3" TxState.readTx store3w = .ok 2 :=
  (verify_total_is_sum_of_entry_failures fs3w "" "set3" TxState.readTx store3w
    [⟨rec3w, "/w"⟩] (by decide)).trans (by decide)

theorem queryLoop_error_of_junk (pfx : String) :
    ∀ (b : Bucket) (k raw : String), (k, Val.junk raw) ∈ b → hasPfx k pfx = true →
      queryLoop pfx b = .error .unmarshalFailed := by
  intro b
  induction b with
  | nil => intro k raw hmem; intro _; cases hmem
  | cons kv rest ih =>
    intro k raw hmem hp
    cases hmem with
    | head => simp [queryLoop, hp, unmarshalVal]
    | tail _ hmem2 =>
      rcases kv with ⟨k2, v2⟩
      by_cases h2 : hasPfx k2 pfx = true
      · cases hv : unmarshalVal v2 with
        | none => simp [queryLoop, h2, hv]
        | some r => simp [queryLoop, h2, hv, ih k raw hmem2 hp]
      · simp [queryLoop, h2, ih k raw hmem2 hp]

/-- C4 counterexample: the fileset of store4corrupt holds one corrupt value and
one valid record, yet verify does not examine the valid record and count — the
query step fails on the corrupt value and the whole verify pass returns an
error instead of a count. -/
theorem corrupt_record_aborts_verify :
    verifyFile fsAbsent "" "set4" TxState.readTx store4corrupt =
      .error DbErr.unmarshalFailed := by decide

/-- C4 amended: a stored record that fails to deserialize makes the query step
of the verify pass fail, aborting the whole pass with an error; only malformed
per-check baseline data inside records that do deserialize is surfaced as
per-entry check failures, with the pass continuing and returning the sum of
the per-entry counts. -/
theorem verify_corrupt_data_handling :
    (∀ (tx : TxState) (s : Store) (fileset pfx : String) (b : Bucket) (fs : FsState)
       (k raw : String),
       findBucket s fileset = some b → (k, Val.junk raw) ∈ b → hasPfx k pfx = true →
       tx ≠ TxState.noTx →
       verifyFile fs pfx fileset tx s = .error .unmarshalFailed) ∧
    (∀ (fs : FsState) (fqn fileset : String) (tx : TxState) (s : Store)
       (entries : List TriplineEntry),
       QueryTriplineRecords tx s fileset fqn = .ok entries →
       verifyFile fs fqn fileset tx s = .ok ((entries.map (specEntryFailCount fs)).sum)) := by
  constructor
  · intro tx s fileset pfx b fs k raw hb hmem hp htx
    have hq : QueryTriplineRecords tx s fileset pfx = .error .unmarshalFailed := by
      unfold QueryTriplineRecords
      rw [if_neg htx, hb]
      exact queryLoop_error_of_junk pfx b k raw hmem hp
    simp [verifyFile, hq]
  · intro fs fqn fileset tx s entries h
    simp [verifyFile, h, verifyLoop_eq_sum]

theorem verify_corrupt_data_handling_witness :
    verifyFile fsAbsent "/a" "set4" TxState.readTx store4corrupt =
      .error DbErr.unmarshalFailed ∧
    verifyFile fs4b "" "set4b" TxState.readTx store4b = .ok 1 :=
  ⟨verify_corrupt_data_handling.1 TxState.readTx store4corrupt "set4" "/a"
      [("/a", Val.junk "xx"), ("/b", Val.enc recEmpty)] fsAbsent "/a" "xx"
      (by decide) (by decide) (by decide) (by decide),
   (verify_corrupt_data_handling.2 fs4b "" "set4b" TxState.readTx store4b
      [⟨rec4b, "/c"⟩] (by decide)).trans (by decide)⟩

/-- C2: for a fileset present in the store and any password, signature
verification fails with the no-signature conditions exactly when the reserved
signatures bucket or the fileset's signature entry is absent, with the
wrong-password condition exactly when authenticated decryption of the stored
ciphertext fails, with the contents-changed condition exactly when the
decrypted digest differs from the freshly recomputed one, and passes exactly
when presence, decryption and digest equality all hold. -/
theorem verify_signature_outcomes (tx : TxState) (s : Store) (fileset password : String)
    (b : Bucket) (htx : tx ≠ TxState.noTx) (hb : findBucket s fileset = some b) :
    (VerifyFilesetSignature tx s fileset password = .error .noSignatures ↔
       findBucket s sigbucket = none) ∧
    (VerifyFilesetSignature tx s fileset password = .error .noSignature ↔
       ∃ sigs, findBucket s sigbucket = some sigs ∧ bucketGet sigs fileset = none) ∧
    (VerifyFilesetSignature tx s fileset password = .error .wrongPassword ↔
       ∃ sigs c, findBucket s sigbucket = some sigs ∧ bucketGet sigs fileset = some c ∧
         Decrypt password c = none) ∧
    (VerifyFilesetSignature tx s fileset password = .error .contentsChanged ↔
       ∃ sigs c plain, findBucket s sigbucket = some sigs ∧
         bucketGet sigs fileset = some c ∧ Decrypt password c = some plain ∧
         plain ≠ calcBucketHash b) ∧
    (VerifyFilesetSignature tx s fileset password = .ok () ↔
       ∃ sigs c, findBucket s sigbucket = some sigs ∧ bucketGet sigs fileset = some c ∧
         Decrypt password c = some (calcBucketHash b)) := by
  cases hsig : findBucket s sigbucket with
  | none =>
    have hV1 : VerifyFilesetSignature tx s fileset password = .error .noSignatures := by
      unfold VerifyFilesetSignature
      rw [if_neg htx, hb, hsig]
    rw [hV1]
    simp
  | some sigs =>
    have hV1 : VerifyFilesetSignature tx s fileset password =
        (match bucketGet sigs fileset with
         | none => Except.error DbErr.noSignature
         | some oldSignature =>
           match Decrypt password oldSignature with
           | none => Except.error DbErr.wrongPassword
           | some plain =>
             if plain = calcBucketHash b then Except.ok () else Except.error DbErr.contentsChanged) := by
      unfold VerifyFilesetSignature
      rw [if_neg htx, hb, hsig]
    cases hget : bucketGet sigs fileset with
    | none =>
      rw [hget] at hV1
      have hV2 : VerifyFilesetSignature tx s fileset password = .error .noSignature := hV1
      rw [hV2]
      simp [hget]
    | some c =>
      rw [hget] at hV1
      have hV2 : VerifyFilesetSignature tx s fileset password =
          (match Decrypt password c with
           | none => Except.error DbErr.wrongPassword
           | some plain =>
             if plain = calcBucketHash b then Except.ok () else Except.error DbErr.contentsChanged) := hV1
      cases hdec : Decrypt password c with
      | none =>
        rw [hdec] at hV2
        have hV3 : VerifyFilesetSignature tx s fileset password = .error .wrongPassword := hV2
        rw [hV3]
        simp [hget, hdec]
      | some plain =>
        rw [hdec] at hV2
        have hV3 : VerifyFilesetSignature tx s fileset password =
            (if plain = calcBucketHash b then Except.ok () else Except.error DbErr.contentsChanged) := hV2
        by_cases hcmp : plain = calcBucketHash b
        · rw [if_pos hcmp] at hV3
          rw [hV3]
          simp [hget, hdec, hcmp]
        · rw [if_neg hcmp] at hV3
          rw [hV3]
          simp [hget, hdec, hcmp]

theorem verify_signature_outcomes_witness :
    VerifyFilesetSignature TxState.readTx store2 "set2" "pw" = Except.ok () :=
  (verify_signature_outcomes TxState.readTx store2 "set2" "pw" bkt2
      (by decide) (by decide)).2.2.2.2.mpr
    ⟨[("set2", sig2)], sig2, by decide, by decide, by decide⟩

theorem bucketGet_bucketPut (b : Bucket) (k : String) (v : Val) :
    bucketGet (bucketPut b k v) k = some v := by
  induction b with
  | nil => simp [bucketPut, bucketGet]
  | cons kv rest ih =>
    rcases kv with ⟨k2, v2⟩
    by_cases h1 : strLtB k k2 = true
    · simp [bucketPut, h1, bucketGet]
    · by_cases h2 : k = k2
      · subst h2
        simp [bucketPut, h1, bucketGet]
      · have h3 : k2 ≠ k := fun he => h2 he.symm
        simp [bucketPut, h1, h2, bucketGet, h3, ih]

/-- C7: add auto-creates the target fileset bucket when absent; an existing key
with overwrite unset fails with the distinguished record-exists condition
(leaving the store untouched, since the error carries no new state); with
overwrite set the record is replaced; and at the engine level the skip flag
turns the record-exists outcome into success with the original store — and so
the original baseline — untouched. -/
theorem add_record_policies :
    (∀ (s : Store) (p : String) (r : TriplineRecord) (f : String) (ow : Bool),
       findBucket s f = none →
       AddTriplineRecord TxState.writeTx s p r f ow =
         .ok (storeSet s f [(p, Val.enc r)])) ∧
    (∀ (s : Store) (p : String) (r : TriplineRecord) (f : String) (b : Bucket) (v : Val),
       findBucket s f = some b → bucketGet b p = some v →
       AddTriplineRecord TxState.writeTx s p r f false = .error .recordExists) ∧
    (∀ (s : Store) (p : String) (r : TriplineRecord) (f : String) (b : Bucket),
       findBucket s f = some b →
       AddTriplineRecord TxState.writeTx s p r f true =
         .ok (storeSet s f (bucketPut b p (Val.enc r))) ∧
       bucketGet (bucketPut b p (Val.enc r)) p = some (Val.enc r)) ∧
    (∀ (s : Store) (p : String) (r : TriplineRecord) (f : String) (b : Bucket) (v : Val),
       findBucket s f = some b → bucketGet b p = some v →
       addRecordWithPolicy TxState.writeTx s p r f false true = .ok s) := by
  refine ⟨?_, ?_, ?_, ?_⟩
  · intro s p r f ow h
    simp [AddTriplineRecord, h, bucketGet, bucketPut]
  · intro s p r f b v hb hget
    simp [AddTriplineRecord, hb, hget]
  · intro s p r f b hb
    exact ⟨by simp [AddTriplineRecord, hb], bucketGet_bucketPut b p (Val.enc r)⟩
  · intro s p r f b v hb hget
    simp [addRecordWithPolicy, AddTriplineRecord, hb, hget]

theorem add_record_policies_witness :
    AddTriplineRecord TxState.writeTx [] "/p" recEmpty "setw" false =
      .ok [("setw", [("/p", Val.enc recEmpty)])] ∧
    AddTriplineRecord TxState.writeTx storeHas "/p" recEmpty "fsa" false =
      .error DbErr.recordExists ∧
    AddTriplineRecord TxState.writeTx storeHas "/p" recEmpty "fsa" true =
      .ok [("fsa", [("/p", Val.enc recEmpty)])] ∧
    addRecordWithPolicy TxState.writeTx storeHas "/p" recEmpty "fsa" false true =
      .ok storeHas :=
  ⟨(add_record_policies.1 [] "/p" recEmpty "setw" false (by decide)).trans (by decide),
   add_record_policies.2.1 storeHas "/p" recEmpty "fsa" [("/p", Val.enc recEmpty)]
     (Val.enc recEmpty) (by decide) (by decide),
   ((add_record_policies.2.2.1 storeHas "/p" recEmpty "fsa"
       [("/p", Val.enc recEmpty)] (by decide)).1).trans (by decide),
   add_record_policies.2.2.2 storeHas "/p" recEmpty "fsa" [("/p", Val.enc recEmpty)]
     (Val.enc recEmpty) (by decide) (by decide)⟩

theorem queryLoop_eq_spec (pfx : String) :
    ∀ (b : Bucket),
      (∀ kv ∈ b, hasPfx kv.1 pfx = true → (unmarshalVal kv.2).isSome = true) →
      queryLoop pfx b = .ok (specQueryResult pfx b) := by
  intro b
  induction b with
  | nil => intro _; rfl
  | cons kv rest ih =>
    intro h
    rcases kv with ⟨k, v⟩
    have hrest : ∀ kv ∈ rest, hasPfx kv.1 pfx = true → (unmarshalVal kv.2).isSome = true :=
      fun kv hm hp => h kv (List.mem_cons_of_mem _ hm) hp
    by_cases hp : hasPfx k pfx = true
    · have hs := h (k, v) (List.mem_cons_self _ _) hp
      cases hv : unmarshalVal v with
      | none => rw [hv] at hs; simp at hs
      | some r =>
        simp [queryLoop, hp, hv, ih hrest, specQueryResult, List.filterMap_cons]
    · simp [queryLoop, hp, ih hrest, specQueryResult, List.filterMap_cons]

theorem specQueryResult_paths (pfx : String) :
    ∀ (b : Bucket),
      (∀ kv ∈ b, hasPfx kv.1 pfx = true → (unmarshalVal kv.2).isSome = true) →
      (specQueryResult pfx b).map TriplineEntry.path =
        (b.filter (fun kv => hasPfx kv.1 pfx)).map Prod.fst := by
  intro b
  induction b with
  | nil => intro _; rfl
  | cons kv rest ih =>
    intro h
    rcases kv with ⟨k, v⟩
    have hrest : ∀ kv ∈ rest, hasPfx kv.1 pfx = true → (unmarshalVal kv.2).isSome = true :=
      fun kv hm hp => h kv (List.mem_cons_of_mem _ hm) hp
    by_cases hp : hasPfx k pfx = true
    · have hs := h (k, v) (List.mem_cons_self _ _) hp
      cases hv : unmarshalVal v with
      | none => rw [hv] at hs; simp at hs
      | some r =>
        simp only [specQueryResult, List.filterMap_cons, List.filter_cons, hp, hv,
          if_pos, Option.map_some, List.map_cons]
        exact congrArg (List.cons k) (ih hrest)
    · simp only [specQueryResult, List.filterMap_cons, List.filter_cons, hp,
        if_neg, Bool.false_eq_true, not_false_eq_true, if_false]
      exact ih hrest

theorem query_keys_sorted (pfx : String) (b : Bucket)
    (hs : List.Pairwise (fun x y : String × Val => strLtB x.1 y.1 = true) b) :
    List.Pairwise (fun x y : String => strLtB x y = true)
      ((b.filter (fun kv => hasPfx kv.1 pfx)).map Prod.fst) := by
  have h2 : List.Pairwise (fun x y : String × Val => strLtB x.1 y.1 = true)
      (b.filter (fun kv => hasPfx kv.1 pfx)) :=
    List.Pairwise.sublist (List.filter_sublist b) hs
  exact List.pairwise_map.mpr h2

/-- C8: a prefix query over a fileset returns exactly the entries whose path
key starts with the given pre-string, walked in ascending key order (the
result keys are the filtered bucket keys, pairwise ascending whenever the
bucket is); an empty pre-string matches every entry and list is exactly the
query with the empty pre-string; an unknown fileset fails with the
unknown-fileset condition. -/
theorem query_by_prefix_semantics :
    (∀ (tx : TxState) (s : Store) (f pfx : String) (b : Bucket),
       tx ≠ TxState.noTx → findBucket s f = some b →
       (∀ kv ∈ b, hasPfx kv.1 pfx = true → (unmarshalVal kv.2).isSome = true) →
       QueryTriplineRecords tx s f pfx = .ok (specQueryResult pfx b) ∧
       (specQueryResult pfx b).map TriplineEntry.path =
         (b.filter (fun kv => hasPfx kv.1 pfx)).map Prod.fst ∧
       (List.Pairwise (fun x y : String × Val => strLtB x.1 y.1 = true) b →
         List.Pairwise (fun x y : String => strLtB x y = true)
           ((b.filter (fun kv => hasPfx kv.1 pfx)).map Prod.fst))) ∧
    (∀ (tx : TxState) (s : Store) (f : String),
       ListTriplineRecords tx s f = QueryTriplineRecords tx s f "") ∧
    (∀ (k : String), hasPfx k "" = true) ∧
    (∀ (tx : TxState) (s : Store) (f pfx : String),
       tx ≠ TxState.noTx → findBucket s f = none →
       QueryTriplineRecords tx s f pfx = .error (.unknownFileset f)) := by
  refine ⟨?_, ?_, ?_, ?_⟩
  · intro tx s f pfx b htx hb hdec
    refine ⟨?_, specQueryResult_paths pfx b hdec, fun hs => query_keys_sorted pfx b hs⟩
    unfold QueryTriplineRecords
    rw [if_neg htx, hb]
    exact queryLoop_eq_spec pfx b hdec
  · intro tx s f; rfl
  · intro k; simp [hasPfx]
  · intro tx s f pfx htx hb
    unfold QueryTriplineRecords
    rw [if_neg htx, hb]

theorem query_by_prefix_semantics_witness :
    QueryTriplineRecords TxState.readTx store8 "set8" "/a" =
      .ok [⟨recEmpty, "/a"⟩, ⟨recEmpty, "/ab"⟩] :=
  ((query_by_prefix_semantics.1 TxState.readTx store8 "set8" "/a"
      [("/a", Val.enc recEmpty), ("/ab", Val.enc recEmpty)]
      (by decide) (by decide) (by decide)).1).trans (by decide)

/-- C9: the built-in checkers tolerate malformed baseline values: for every
path, filesystem and current metadata, a wrong-shaped stored value makes
executeCheck return its data-corrupt failure reason rather than crashing or
passing — ownership on anything but an object with string User and Group
fields; sha256, size, permissions and modtime on any non-string (size also on
an unparsable string); child on any non-array and, once the directory is
readable, on arrays with non-string elements. -/
theorem checkers_fail_closed_on_malformed_data :
    (∀ (data : Option JsonVal) (fi : FileInfo), ownershipShapeOk data = false →
       ownershipExecuteCheck data fi = some "data corrupt") ∧
    (∀ (fs : FsState) (fqn : String) (data : Option JsonVal), isStrVal data = false →
       sha256ExecuteCheck fs fqn data = some "data corrupt") ∧
    (∀ (data : Option JsonVal) (fi : FileInfo), isStrVal data = false →
       sizeExecuteCheck data fi = some "size was not recorded") ∧
    (∀ (fi : FileInfo) (sx : String), parseIntModel sx = none →
       sizeExecuteCheck (some (JsonVal.str sx)) fi = some "size was not recorded") ∧
    (∀ (data : Option JsonVal) (fi : FileInfo), isStrVal data = false →
       permissionsExecuteCheck data fi = some "corrupt data, expected string") ∧
    (∀ (data : Option JsonVal) (fi : FileInfo), isStrVal data = false →
       modtimeExecuteCheck data fi = some "modtime not recorded") ∧
    (∀ (fs : FsState) (fqn : String) (data : Option JsonVal), isArrVal data = false →
       childExecuteCheck fs fqn data = some "corrupt child data") ∧
    (∀ (fs : FsState) (fqn : String) (xs : List JsonItem) (l : List String),
       fs.readDir fqn = some l → collectStrings xs = none →
       childExecuteCheck fs fqn (some (JsonVal.arr xs)) = some "corrupt child data") := by
  refine ⟨?_, ?_, ?_, ?_, ?_, ?_, ?_, ?_⟩
  · intro data fi h
    match data with
    | none => rfl
    | some .null => rfl
    | some (.boolean b2) => rfl
    | some (.num n2) => rfl
    | some (.str s2) => rfl
    | some (.arr xs) => rfl
    | some (.obj fields) =>
      cases hu : lookupField fields "User" with
      | none => simp [ownershipExecuteCheck, hu]
      | some itu =>
        cases itu with
        | null => simp [ownershipExecuteCheck, hu]
        | boolean b2 => simp [ownershipExecuteCheck, hu]
        | num n2 => simp [ownershipExecuteCheck, hu]
        | str u =>
          cases hg : lookupField fields "Group" with
          | none => simp [ownershipExecuteCheck, hu, hg]
          | some itg =>
            cases itg with
            | null => simp [ownershipExecuteCheck, hu, hg]
            | boolean b2 => simp [ownershipExecuteCheck, hu, hg]
            | num n2 => simp [ownershipExecuteCheck, hu, hg]
            | str g => simp [ownershipShapeOk, hu, hg] at h
  · intro fs fqn data h
    match data with
    | none => rfl
    | some .null => rfl
    | some (.boolean b2) => rfl
    | some (.num n2) => rfl
    | some (.str s2) => simp [isStrVal] at h
    | some (.arr xs) => rfl
    | some (.obj fields) => rfl
  · intro data fi h
    match data with
    | none => rfl
    | some .null => rfl
    | some (.boolean b2) => rfl
    | some (.num n2) => rfl
    | some (.str s2) => simp [isStrVal] at h
    | some (.arr xs) => rfl
    | some (.obj fields) => rfl
  · intro fi sx h
    simp [sizeExecuteCheck, h]
  · intro data fi h
    match data with
    | none => rfl
    | some .null => rfl
    | some (.boolean b2) => rfl
    | some (.num n2) => rfl
    | some (.str s2) => simp [isStrVal] at h
    | some (.arr xs) => rfl
    | some (.obj fields) => rfl
  · intro data fi h
    match data with
    | none => rfl
    | some .null => rfl
    | some (.boolean b2) => rfl
    | some (.num n2) => rfl
    | some (.str s2) => simp [isStrVal] at h
    | some (.arr xs) => rfl
    | some (.obj fields) => rfl
  · intro fs fqn data h
    match data with
    | none => rfl
    | some .null => rfl
    | some (.boolean b2) => rfl
    | some (.num n2) => rfl
    | some (.str s2) => rfl
    | some (.arr xs) => simp [isArrVal] at h
    | some (.obj fields) => rfl
  · intro fs fqn xs l h1 h2
    simp [childExecuteCheck, childList, h1, h2]

theorem checkers_fail_closed_witness :
    ownershipExecuteCheck (some (JsonVal.num 3)) fi9 = some "data corrupt" ∧
    sha256ExecuteCheck fs9 "/f" (some (JsonVal.num 1)) = some "data corrupt" ∧
    sizeExecuteCheck (some (JsonVal.boolean true)) fi9 = some "size was not recorded" ∧
    sizeExecuteCheck (some (JsonVal.str "zz")) fi9 = some "size was not recorded" ∧
    permissionsExecuteCheck (some JsonVal.null) fi9 = some "corrupt data, expected string" ∧
    modtimeExecuteCheck (some (JsonVal.arr [])) fi9 = some "modtime not recorded" ∧
    childExecuteCheck fs9 "/d" (some (JsonVal.str "x")) = some "corrupt child data" ∧
    childExecuteCheck fs9 "/d" (some (JsonVal.arr [JsonItem.num 2])) = some "corrupt child data" :=
  ⟨checkers_fail_closed_on_malformed_data.1 (some (JsonVal.num 3)) fi9 (by decide),
   checkers_fail_closed_on_malformed_data.2.1 fs9 "/f" (some (JsonVal.num 1)) (by decide),
   checkers_fail_closed_on_malformed_data.2.2.1 (some (JsonVal.boolean true)) fi9 (by decide),
   checkers_fail_closed_on_malformed_data.2.2.2.1 fi9 "zz" (by decide),
   checkers_fail_closed_on_malformed_data.2.2.2.2.1 (some JsonVal.null) fi9 (by decide),
   checkers_fail_closed_on_malformed_data.2.2.2.2.2.1 (some (JsonVal.arr [])) fi9 (by decide),
   checkers_fail_closed_on_malformed_data.2.2.2.2.2.2.1 fs9 "/d" (some (JsonVal.str "x")) (by decide),
   checkers_fail_closed_on_malformed_data.2.2.2.2.2.2.2 fs9 "/d" [JsonItem.num 2] [] (by rfl) (by decide)⟩
